import Mathlib

/-!
# Verification of the distdl redistribution / metadata-negotiation core

Shallow embedding of `src/distdl/backends/mpi/tensor_comm.py` and of the
surrounding partition / decomposition machinery described by the spec.

Modelling conventions:
* A worker is identified by a natural number (its rank).
* An MPI `Allreduce` with `MAX` (resp. `SUM`) over a communicator is embedded
  as the maximum (resp. sum) of the contributions of the communicator's
  member set: every member of the partition executes the same SPMD code, so
  the set of participants and each participant's buffer contents are
  determined by the function's control flow.
* `numpy` error behaviour that matters to the claims (allocating a buffer of
  negative size raises `ValueError`) is embedded as an explicit error
  constructor in the result type.
-/

namespace Distdl

/-! ## Block decomposition (ShapeDecomposer)

Modelled from the spec: `compute_subsizes` / `local_block` is not under
`src/` (only its callers are).  Spec section 4.1: for each axis independently,
`base = global div grid`, `remainder = global mod grid`; coordinates below
the remainder receive `base + 1`, the others receive `base`; prefix sums of
the per-axis allocations give the owned index range. -/

/-- Modelled from the spec: the local extent owned on one axis by the worker
whose coordinate on that axis is `c`, for grid extent `g` and global extent
`n` (`compute_subsizes`, per axis). -/
def local_extent (g n c : ℕ) : ℕ :=
  n / g + (if c < n % g then 1 else 0)

/-- Modelled from the spec: the offset (start of the owned half-open index
range) on one axis, obtained by prefix-summing the per-axis allocations. -/
def block_start (g n c : ℕ) : ℕ :=
  c * (n / g) + min c (n % g)

/-- The global index `j` lies in the axis block owned by coordinate `c`. -/
def InBlock (g n c j : ℕ) : Prop :=
  block_start g n c ≤ j ∧ j < block_start g n c + local_extent g n c

instance (g n c j : ℕ) : Decidable (InBlock g n c j) := by
  unfold InBlock; exact inferInstance

lemma block_start_succ (g n c : ℕ) :
    block_start g n (c + 1) = block_start g n c + local_extent g n c := by
  unfold block_start local_extent
  rw [Nat.succ_mul]
  rcases Nat.lt_or_ge c (n % g) with h | h
  · rw [if_pos h]; omega
  · rw [if_neg (Nat.not_lt.mpr h)]; omega

lemma block_start_mono (g n : ℕ) {c c' : ℕ} (h : c ≤ c') :
    block_start g n c ≤ block_start g n c' := by
  unfold block_start
  have h1 : c * (n / g) ≤ c' * (n / g) := Nat.mul_le_mul_right _ h
  have h2 : min c (n % g) ≤ min c' (n % g) := by omega
  omega

lemma sum_local_extent_eq_block_start (g n : ℕ) :
    ∀ m, ∑ c ∈ Finset.range m, local_extent g n c = block_start g n m := by
  intro m
  induction m with
  | zero => simp [block_start]
  | succ k ih => rw [Finset.sum_range_succ, ih, block_start_succ]

lemma block_start_grid (g n : ℕ) (hg : 0 < g) : block_start g n g = n := by
  have h2 : n % g < g := Nat.mod_lt _ hg
  unfold block_start
  rw [Nat.min_eq_right (Nat.le_of_lt h2)]
  exact Nat.div_add_mod n g

/-- The per-axis extents laid end to end recover the global extent. -/
lemma sum_local_extent (g n : ℕ) (hg : 0 < g) :
    ∑ c ∈ Finset.range g, local_extent g n c = n := by
  rw [sum_local_extent_eq_block_start, block_start_grid g n hg]

lemma exists_inBlock (g n : ℕ) (hg : 0 < g) (j : ℕ) (hj : j < n) :
    ∃ c, c < g ∧ InBlock g n c j := by
  have key : ∀ m, j < block_start g n m → ∃ c, c < m ∧ InBlock g n c j := by
    intro m
    induction m with
    | zero => intro h; simp [block_start] at h
    | succ k ih =>
      intro h
      rcases Nat.lt_or_ge j (block_start g n k) with hlt | hge
      · obtain ⟨c, hc, hcj⟩ := ih hlt
        exact ⟨c, Nat.lt_succ_of_lt hc, hcj⟩
      · refine ⟨k, Nat.lt_succ_self k, hge, ?_⟩
        rw [block_start_succ] at h
        exact h
  apply key g
  rw [block_start_grid g n hg]
  exact hj

lemma inBlock_unique (g n : ℕ) {c c' j : ℕ}
    (h : InBlock g n c j) (h' : InBlock g n c' j) : c = c' := by
  by_contra hne
  rcases Nat.lt_or_ge c c' with hlt | hge
  · have h1 : block_start g n (c + 1) ≤ block_start g n c' := block_start_mono g n hlt
    rw [block_start_succ] at h1
    rcases h with ⟨_, hb⟩
    rcases h' with ⟨ha, _⟩
    omega
  · have hlt' : c' < c := Nat.lt_of_le_of_ne hge (fun e => hne e.symm)
    have h1 : block_start g n (c' + 1) ≤ block_start g n c := block_start_mono g n hlt'
    rw [block_start_succ] at h1
    rcases h with ⟨ha, _⟩
    rcases h' with ⟨_, hb⟩
    omega

lemma local_extent_balance (g n c c' : ℕ) :
    local_extent g n c ≤ local_extent g n c' + 1 := by
  unfold local_extent
  split <;> split <;> omega

/-! ## Multi-axis coordinates -/

variable {d : ℕ}

/-- All coordinates of a `d`-dimensional Cartesian grid with extents `g`. -/
def gridCoords (g : Fin d → ℕ) : Finset (Fin d → ℕ) :=
  Fintype.piFinset fun i => Finset.range (g i)

/-- The multi-index `j` lies in the block owned by coordinate `c` of the grid
`g`, for global shape `n` (axis-wise `InBlock`). -/
def InBlockV (g n c j : Fin d → ℕ) : Prop :=
  ∀ i, InBlock (g i) (n i) (c i) (j i)

instance (g n c j : Fin d → ℕ) : Decidable (InBlockV g n c j) := by
  unfold InBlockV; exact inferInstance

/-- The local block volumes of all grid coordinates sum to the global volume. -/
lemma sum_block_volumes (g n : Fin d → ℕ) (hg : ∀ i, 0 < g i) :
    ∑ c ∈ gridCoords g, ∏ i, local_extent (g i) (n i) (c i) = ∏ i, n i := by
  unfold gridCoords
  rw [← Finset.prod_univ_sum]
  exact Finset.prod_congr rfl fun i _ => sum_local_extent (g i) (n i) (hg i)

/-! ## Redistribution (Redistributor / DistributedTranspose)

Modelled from the spec: `distdl/nn/transpose.py` is not under `src/` (only
its tests call it).  Spec section 4.4: the schedule retains a
(source, destination) worker pair iff the axis-wise intersection of their
block ranges is non-empty; `execute_forward` moves each intersecting
sub-block from source to destination; `execute_adjoint` swaps the roles and
sums overlapping contributions.  Data movement is expressed per global
index: worker `u` of the source grid holds the value `x u j` at every global
multi-index `j` inside its block. Exact integer arithmetic stands in for the
floating-point values of the code. -/

/-- Modelled from the spec: forward redistribution.  The value held at
global index `j` by destination worker `v` is the sum of the contributions
sent through every schedule entry `(u, v)` whose intersection contains `j`
(the source blocks tile the index space, so at most one term is non-zero). -/
def transpose_forward (gs gd n : Fin d → ℕ)
    (x : (Fin d → ℕ) → (Fin d → ℕ) → ℤ) (v j : Fin d → ℕ) : ℤ :=
  ∑ u ∈ gridCoords gs,
    if InBlockV gs n u j ∧ InBlockV gd n v j then x u j else 0

/-- Modelled from the spec: adjoint redistribution, the same schedule with
source and destination roles swapped and contributions summed. -/
def transpose_adjoint (gs gd n : Fin d → ℕ)
    (y : (Fin d → ℕ) → (Fin d → ℕ) → ℤ) (u j : Fin d → ℕ) : ℤ :=
  ∑ v ∈ gridCoords gd,
    if InBlockV gs n u j ∧ InBlockV gd n v j then y v j else 0

/-- Modelled from the spec: the global inner product of two fields
distributed over the grid `g`, accumulated (global sum reduction) over every
worker's local block. -/
def global_inner (g n : Fin d → ℕ)
    (a b : (Fin d → ℕ) → (Fin d → ℕ) → ℤ) : ℤ :=
  ∑ c ∈ gridCoords g, ∑ j ∈ gridCoords n,
    if InBlockV g n c j then a c j * b c j else 0

lemma ite_sum_mul {ι : Type} (s : Finset ι) (P : Prop) [Decidable P]
    (Q : ι → Prop) [DecidablePred Q] (a : ι → ℤ) (b : ℤ) :
    (if P then (∑ u ∈ s, if Q u ∧ P then a u else 0) * b else 0) =
      ∑ u ∈ s, if Q u ∧ P then a u * b else 0 := by
  by_cases hP : P
  · simp only [if_pos hP, Finset.sum_mul, ite_mul, zero_mul]
  · simp [hP]

lemma ite_mul_sum {ι : Type} (s : Finset ι) (P : Prop) [Decidable P]
    (Q : ι → Prop) [DecidablePred Q] (a : ℤ) (b : ι → ℤ) :
    (if P then a * (∑ v ∈ s, if P ∧ Q v then b v else 0) else 0) =
      ∑ v ∈ s, if P ∧ Q v then a * b v else 0 := by
  by_cases hP : P
  · simp only [if_pos hP, Finset.mul_sum, mul_ite, mul_zero]
  · simp [hP]

/-! ## Metadata negotiation: `compute_output_tensor_structure`

Embedding of `src/src/distdl/backends/mpi/tensor_comm.py`, lines 10-85.
The function is SPMD: every worker calls it with the same two partition
arguments, so an `Iallreduce(MPI.IN_PLACE, buf, op=MPI.MAX)` on a
partition's communicator combines, across exactly that partition's members,
the buffer contents each member holds at the matching call site. -/

/-- A partition as `compute_output_tensor_structure` sees it: a member set
plus an identity tag, because the code compares the two partition arguments
with Python object inequality (`P_send != P_recv`, lines 44, 70, 74): two
distinct partition objects over the same members are unequal. -/
structure Partition where
  pid : ℕ
  members : Finset ℕ
deriving DecidableEq

/-- The local tensor a worker passes in: only `requires_grad` and `shape`
are read (lines 20-24, 75-77). -/
structure Tensor where
  requires_grad : Bool
  shape : List ℕ
deriving DecidableEq

/-- The sentinel the receive-side buffers are initialised to
(lines 19, 46, 47, 60: `np.array([-1])`, `recv_tensor_shape[:] = -1`). -/
def sentinel : ℤ := -1

/-- `Iallreduce(..., op=MPI.MAX)` over a partition's communicator: the
maximum of all members' buffer contents.  The default for an empty member
set is irrelevant: MPI collectives are only ever posted on communicators the
caller belongs to. -/
def allreduceMax (members : Finset ℕ) (contrib : ℕ → ℤ) : ℤ :=
  (members.image contrib).max.unbot' sentinel

/-- The three possible outcomes of `compute_output_tensor_structure` for one
worker: the `(None, None, None)` triple (line 13 or lines 79-81), a real
triple (lines 71-73 or 75-77), or the `ValueError` numpy raises when
`np.zeros(recv_tensor_dim)` is given a negative size (line 59). -/
inductive CotsOut where
  | none3
  | values (requires_grad : Bool) (dim : ℤ) (shape : List ℤ)
  | npError
deriving DecidableEq

/-- Embedding of `compute_output_tensor_structure` (lines 10-85), the result
for worker `w`.

* Lines 12-13: a worker in neither partition returns the empty triple.
* Lines 17-37: a `P_send`-active worker posts three maximum reductions of
  its true values on `P_send.comm`; their results are never read afterwards
  (the copies are explicitly ignored), so they do not appear in the result.
* Lines 44-62: when `P_send != P_recv`, every `P_recv`-active worker posts
  three maximum reductions on `P_recv.comm`.  Every participant's buffers
  hold the sentinel `-1` at the reduction call sites (lines 46, 47, 60) —
  including participants that are also members of `P_send`, whose true
  values were only written into the separate `P_send`-scoped buffers.  The
  dimension reduction is waited on (line 57) and its result sizes the shape
  buffer, `np.zeros(recv_tensor_dim)` (line 59), which raises `ValueError`
  on a negative size.
* Lines 70-81: a `P_recv`-active worker with `P_send != P_recv` reads the
  reduction outputs; a worker with `P_send == P_recv` reads its own tensor;
  any other worker returns the empty triple. -/
def compute_output_tensor_structure
    (tensors : ℕ → Tensor) (P_send P_recv : Partition) (w : ℕ) : CotsOut :=
  if w ∉ P_send.members ∧ w ∉ P_recv.members then
    CotsOut.none3
  else if P_send ≠ P_recv ∧ w ∈ P_recv.members then
    if allreduceMax P_recv.members (fun _ => sentinel) < 0 then
      CotsOut.npError
    else
      CotsOut.values
        (decide (allreduceMax P_recv.members (fun _ => sentinel) = 1))
        (allreduceMax P_recv.members (fun _ => sentinel))
        (List.replicate (allreduceMax P_recv.members (fun _ => sentinel)).toNat
          sentinel)
  else if P_send = P_recv then
    CotsOut.values (tensors w).requires_grad
      ((tensors w).shape.length : ℤ)
      ((tensors w).shape.map fun m => (m : ℤ))
  else
    CotsOut.none3

/-- How many `Iallreduce` calls worker `w` issues inside
`compute_output_tensor_structure`: three on the send side (lines 25, 30, 36)
and three on the receive side (lines 51, 56, 61). -/
def reduction_calls (P_send P_recv : Partition) (w : ℕ) : ℕ :=
  if w ∉ P_send.members ∧ w ∉ P_recv.members then 0
  else
    (if w ∈ P_send.members then 3 else 0) +
      (if P_send ≠ P_recv ∧ w ∈ P_recv.members then 3 else 0)

lemma allreduceMax_sentinel (m : Finset ℕ) (hm : m.Nonempty) :
    allreduceMax m (fun _ => sentinel) = sentinel := by
  unfold allreduceMax
  rw [Finset.image_const hm]
  rfl

/-- Whenever the two partitions are distinct, every `P_recv`-active worker
raises: all destination-scoped buffers hold the sentinel, so the dimension
reduction returns `-1` and the shape-buffer allocation fails. -/
lemma cots_recv_side_raises (tensors : ℕ → Tensor) (P_send P_recv : Partition)
    (w : ℕ) (hne : P_send ≠ P_recv) (hw : w ∈ P_recv.members) :
    compute_output_tensor_structure tensors P_send P_recv w = CotsOut.npError := by
  have hnem : P_recv.members.Nonempty := ⟨w, hw⟩
  unfold compute_output_tensor_structure
  rw [if_neg (by simp [hw]), if_pos ⟨hne, hw⟩,
    if_pos (by rw [allreduceMax_sentinel _ hnem]; norm_num [sentinel])]

/-! ## Global assembly: `assemble_global_tensor_structure`

Embedding of `src/src/distdl/backends/mpi/tensor_comm.py`, lines 87-133.
`TensorStructure`, `create_cartesian_subtopology_partition` and
`broadcast_data` live outside `src/`; they are modelled from the spec where
noted below.  The dtype round-trip through the intID lookup tables (lines
111-112, 126-127) is the identity on any dtype in the tables' shared domain,
so a dtype is carried directly as its integer tag. -/

/-- A Cartesian-overlaid partition: a member set, and each member's grid
coordinate (spec section 3: every active member of a Cartesian-overlaid
partition has a unique coordinate). `d` is both the grid dimension and the
tensor dimension (`P_in.dim`, lines 97-98). -/
structure CartPartition (d : ℕ) where
  members : Finset ℕ
  coord : ℕ → Fin d → ℕ

/-- Modelled from the spec: `TensorStructure` (section 3) is a plain record
of shape, element type and differentiability flag, any field of which may
still be unknown; a freshly constructed instance has every field unset. -/
structure TensorStructure (d : ℕ) where
  shape : Option (Fin d → ℕ) := none
  dtype : Option ℕ := none
  requires_grad : Option Bool := none
deriving DecidableEq

/-- A fully-known local tensor structure, the input of the assembly. -/
structure LocalStructure (d : ℕ) where
  shape : Fin d → ℕ
  dtype : ℕ
  requires_grad : Bool

/-- Modelled from the spec: `create_cartesian_subtopology_partition keep`
(the spec's `axis_subgroup`, section 4.2) groups the members that share
identical coordinates on every axis where `keep` is false; the subgroup of
`w` is the group `w` falls into. -/
def axis_subgroup {d : ℕ} (P : CartPartition d) (keep : Fin d → Bool)
    (w : ℕ) : Finset ℕ :=
  P.members.filter fun v => ∀ k, keep k = false → P.coord v k = P.coord w k

/-- The structure a `P_in`-active worker `w` assembles (lines 94-119): axis
`i` of the global shape is the `MPI.SUM` reduction of the local extents over
the subtopology keeping only axis `i` (`keep = [False]*dim; keep[i] = True`,
lines 100-108); dtype and `requires_grad` are copied from the local
structure (lines 117-119). -/
def assembled_structure {d : ℕ} (lts : ℕ → LocalStructure d)
    (P_in : CartPartition d) (w : ℕ) : TensorStructure d where
  shape := some fun i =>
    ∑ v ∈ axis_subgroup P_in (fun k => decide (k = i)) w, (lts v).shape i
  dtype := some (lts w).dtype
  requires_grad := some (lts w).requires_grad

/-- Modelled from the spec: `broadcast_data(value, P_data=P_in)` delivers to
every active member of the calling partition a value valid on `P_in`'s
active members (section 4.2); the sender is a fixed representative of
`P_in`'s member set. -/
def broadcast_root {d : ℕ} (P : CartPartition d) : ℕ :=
  P.members.min.untop' 0

lemma broadcast_root_mem {d : ℕ} (P : CartPartition d)
    (h : P.members.Nonempty) : broadcast_root P ∈ P.members := by
  obtain ⟨a, ha⟩ := Finset.min_of_nonempty h
  have : broadcast_root P = a := by unfold broadcast_root; rw [ha]; rfl
  rw [this]
  exact Finset.mem_of_min ha

/-- Embedding of `assemble_global_tensor_structure` (lines 87-133), the
result for worker `w`.

* Line 89: every worker starts from a freshly constructed (all fields
  unset) `TensorStructure`.
* Lines 94-119: a `P_in`-active worker fills it with `assembled_structure`.
* Lines 121-131: when `P_out` is given, each `P_out`-active worker
  overwrites all three fields with the values received from `P_in` through
  `broadcast_data`; per the spec this fails (`NoKnownValueError`, embedded
  as `none`) when `P_in` has no active member.
* Every other worker returns its current structure unchanged. -/
def assemble_global_tensor_structure {d : ℕ} (lts : ℕ → LocalStructure d)
    (P_in : CartPartition d) (P_out : Option (Finset ℕ)) (w : ℕ) :
    Option (TensorStructure d) :=
  let g := if w ∈ P_in.members then assembled_structure lts P_in w
    else {}
  match P_out with
  | none => some g
  | some outM =>
    if w ∈ outM then
      if P_in.members.Nonempty then
        some (assembled_structure lts P_in (broadcast_root P_in))
      else none
    else some g

/-- How many collective operations worker `w` takes part in inside
`assemble_global_tensor_structure`: one `Allreduce` per axis on the input
side (lines 98-107) and three broadcasts on the output side
(lines 123-130). -/
def assemble_collective_calls {d : ℕ} (P_in : CartPartition d)
    (P_out : Option (Finset ℕ)) (w : ℕ) : ℕ :=
  (if w ∈ P_in.members then d else 0) +
    (match P_out with
     | none => 0
     | some outM => if w ∈ outM then 3 else 0)

/-! ## Claim theorems -/

/-- Claim C3: adjoint exactness.  For every global shape, every source and
destination grid, and all fields `x` distributed on the source partition and
`y` on the destination partition, the global inner product of the forward
redistribution of `x` with `y` equals the global inner product of `x` with
the adjoint redistribution of `y`: the two data movements are exact
transposes of each other as linear maps. -/
theorem adjoint_exactness {d : ℕ} (gs gd n : Fin d → ℕ)
    (x y : (Fin d → ℕ) → (Fin d → ℕ) → ℤ) :
    global_inner gd n (transpose_forward gs gd n x) y =
      global_inner gs n x (transpose_adjoint gs gd n y) := by
  unfold global_inner transpose_forward transpose_adjoint
  simp only [ite_sum_mul, ite_mul_sum]
  rw [Finset.sum_comm]
  conv_rhs => rw [Finset.sum_comm]
  refine Finset.sum_congr rfl fun j _ => ?_
  rw [Finset.sum_comm]

/-- Claim C6: the block decomposition follows the div/mod rule on every axis
independently, the per-axis extents laid out by their offsets tile each
global extent exactly (every index is owned by exactly one coordinate, and
the extents sum to the global extent), per-axis extents differ by at most
one, and the local block volumes sum to the global volume. -/
theorem block_decomposition_tiling {d : ℕ} (g n : Fin d → ℕ)
    (hg : ∀ i, 0 < g i) :
    (∀ i c, local_extent (g i) (n i) c
        = n i / g i + (if c < n i % g i then 1 else 0))
    ∧ (∀ i, ∑ c ∈ Finset.range (g i), local_extent (g i) (n i) c = n i)
    ∧ (∀ i j, j < n i → ∃! c, c < g i ∧ InBlock (g i) (n i) c j)
    ∧ (∀ i c c', local_extent (g i) (n i) c ≤ local_extent (g i) (n i) c' + 1)
    ∧ (∑ c ∈ gridCoords g, ∏ i, local_extent (g i) (n i) (c i) = ∏ i, n i) := by
  refine ⟨fun i c => rfl, fun i => sum_local_extent _ _ (hg i),
    fun i j hj => ?_, fun i c c' => local_extent_balance _ _ _ _,
    sum_block_volumes g n hg⟩
  obtain ⟨c, hc, hcb⟩ := exists_inBlock (g i) (n i) (hg i) j hj
  exact ⟨c, ⟨hc, hcb⟩, fun c' hc' => inBlock_unique (g i) (n i) hc'.2 hcb⟩

/-- Witness for C6, at the spec's concrete scenario: source grid `(4, 1)`
over global shape `[77, 55]`. -/
theorem block_decomposition_tiling_witness :
    (∀ i : Fin 2, 0 < (![4, 1] : Fin 2 → ℕ) i)
    ∧ ((∀ i c, local_extent ((![4, 1] : Fin 2 → ℕ) i) ((![77, 55] : Fin 2 → ℕ) i) c
          = (![77, 55] : Fin 2 → ℕ) i / (![4, 1] : Fin 2 → ℕ) i
            + (if c < (![77, 55] : Fin 2 → ℕ) i % (![4, 1] : Fin 2 → ℕ) i then 1 else 0))
      ∧ (∀ i, ∑ c ∈ Finset.range ((![4, 1] : Fin 2 → ℕ) i),
            local_extent ((![4, 1] : Fin 2 → ℕ) i) ((![77, 55] : Fin 2 → ℕ) i) c
          = (![77, 55] : Fin 2 → ℕ) i)
      ∧ (∀ i j, j < (![77, 55] : Fin 2 → ℕ) i →
          ∃! c, c < (![4, 1] : Fin 2 → ℕ) i
            ∧ InBlock ((![4, 1] : Fin 2 → ℕ) i) ((![77, 55] : Fin 2 → ℕ) i) c j)
      ∧ (∀ i c c', local_extent ((![4, 1] : Fin 2 → ℕ) i) ((![77, 55] : Fin 2 → ℕ) i) c
          ≤ local_extent ((![4, 1] : Fin 2 → ℕ) i) ((![77, 55] : Fin 2 → ℕ) i) c' + 1)
      ∧ (∑ c ∈ gridCoords (![4, 1] : Fin 2 → ℕ),
            ∏ i, local_extent ((![4, 1] : Fin 2 → ℕ) i) ((![77, 55] : Fin 2 → ℕ) i) (c i)
          = ∏ i, (![77, 55] : Fin 2 → ℕ) i)) :=
  ⟨by decide, block_decomposition_tiling ![4, 1] ![77, 55] (by decide)⟩

/-- Claim C7: a worker active in neither the source partition nor the
destination partition returns the empty triple `(None, None, None)` and
issues no reduction (tensor_comm.py, lines 12-13). -/
theorem negotiation_inactive_nothing (tensors : ℕ → Tensor)
    (P_send P_recv : Partition) (w : ℕ)
    (hs : w ∉ P_send.members) (hr : w ∉ P_recv.members) :
    compute_output_tensor_structure tensors P_send P_recv w = CotsOut.none3
      ∧ reduction_calls P_send P_recv w = 0 := by
  constructor
  · unfold compute_output_tensor_structure
    rw [if_pos ⟨hs, hr⟩]
  · unfold reduction_calls
    rw [if_pos ⟨hs, hr⟩]

/-- Witness for C7: worker 5 is in neither `{0}` nor `{1}`. -/
theorem negotiation_inactive_nothing_witness :
    ((5 : ℕ) ∉ (Partition.mk 0 {0}).members
        ∧ (5 : ℕ) ∉ (Partition.mk 1 {1}).members)
    ∧ (compute_output_tensor_structure (fun _ => Tensor.mk true [2])
          (Partition.mk 0 {0}) (Partition.mk 1 {1}) 5 = CotsOut.none3
        ∧ reduction_calls (Partition.mk 0 {0}) (Partition.mk 1 {1}) 5 = 0) :=
  ⟨⟨by decide, by decide⟩,
    negotiation_inactive_nothing (fun _ => Tensor.mk true [2])
      (Partition.mk 0 {0}) (Partition.mk 1 {1}) 5 (by decide) (by decide)⟩

/-- Claim C9: a worker active in the source partition but not in the
destination partition, with the two partitions distinct, returns the empty
triple `(None, None, None)` even though it holds the true tensor structure
locally (tensor_comm.py, lines 78-81). -/
theorem negotiation_send_only_nothing (tensors : ℕ → Tensor)
    (P_send P_recv : Partition) (w : ℕ) (hne : P_send ≠ P_recv)
    (hs : w ∈ P_send.members) (hr : w ∉ P_recv.members) :
    compute_output_tensor_structure tensors P_send P_recv w = CotsOut.none3 := by
  unfold compute_output_tensor_structure
  rw [if_neg (by simp [hs]), if_neg (by simp [hr]), if_neg hne]

/-- Witness for C9: worker 0 is in the source `{0}` only. -/
theorem negotiation_send_only_nothing_witness :
    ((Partition.mk 0 {0}) ≠ (Partition.mk 1 {1})
        ∧ (0 : ℕ) ∈ (Partition.mk 0 {0}).members
        ∧ (0 : ℕ) ∉ (Partition.mk 1 {1}).members)
    ∧ compute_output_tensor_structure (fun _ => Tensor.mk true [3, 4])
        (Partition.mk 0 {0}) (Partition.mk 1 {1}) 0 = CotsOut.none3 :=
  ⟨⟨by decide, by decide, by decide⟩,
    negotiation_send_only_nothing (fun _ => Tensor.mk true [3, 4])
      (Partition.mk 0 {0}) (Partition.mk 1 {1}) 0 (by decide) (by decide)
      (by decide)⟩

/-- Claim C1 (negotiation convergence) evaluated at a failing input.  Source
partition `{0}` and destination partition `{0, 1}` intersect in worker 0,
which holds the true structure `(requires_grad = true, dim = 2,
shape = [3, 4])`.  The claim says worker 0 contributes these true values to
the destination-scoped maximum reductions and worker 1 converges on them.
Instead, every destination-scoped buffer holds the sentinel `-1`
(tensor_comm.py, lines 46-60, with no write of the true values), so the
dimension reduction returns `-1`, and both destination workers raise at the
negative-size shape-buffer allocation (line 59) instead of returning the
source's structure. -/
theorem negotiation_convergence_fails_eval :
    compute_output_tensor_structure (fun _ => Tensor.mk true [3, 4])
        (Partition.mk 0 {0}) (Partition.mk 1 {0, 1}) 1 = CotsOut.npError
      ∧ compute_output_tensor_structure (fun _ => Tensor.mk true [3, 4])
        (Partition.mk 0 {0}) (Partition.mk 1 {0, 1}) 0 = CotsOut.npError := by
  decide

/-- Claim C2 evaluated at a failing input.  Worker 1 is active in both the
source partition `{0, 1}` and the distinct destination partition `{1, 2}`.
The claim says it returns its own local structure
`(requires_grad = true, dim = 1, shape = [5])` directly.  Instead the
read-out branch (tensor_comm.py, line 70) routes every destination-active
worker with `P_send != P_recv` — including workers that are also
source-active — to the destination-scoped reduction outputs, which here
terminate in the sentinel-driven negative-size allocation error rather than
the worker's local values. -/
theorem negotiation_both_active_reads_reduction_eval :
    compute_output_tensor_structure (fun _ => Tensor.mk true [5])
        (Partition.mk 0 {0, 1}) (Partition.mk 1 {1, 2}) 1 = CotsOut.npError
      ∧ compute_output_tensor_structure (fun _ => Tensor.mk true [5])
          (Partition.mk 0 {0, 1}) (Partition.mk 1 {1, 2}) 1
        ≠ CotsOut.values true 1 [5] := by
  decide

/-- Counterexample to claim C8 as stated: with distinct partitions `{0}` and
`{1}` whose member sets are disjoint, the destination-only worker 1 does
not complete the call with sentinel values — the call raises (the
destination-scoped dimension reduction returns the sentinel `-1` and
`np.zeros(-1)` fails, tensor_comm.py line 59). -/
theorem empty_intersection_no_error_counterexample :
    compute_output_tensor_structure (fun _ => Tensor.mk true [3, 4])
      (Partition.mk 0 {0}) (Partition.mk 1 {1}) 1 = CotsOut.npError := by
  decide

/-- Claim C8 as amended: when the source and destination partitions are
distinct with disjoint member sets, a destination-only worker does not
complete `compute_output_tensor_structure` with sentinel-derived values; the
destination-scoped dimension reduction converges on the sentinel `-1` and
the shape-buffer allocation raises an error before anything is returned. -/
theorem empty_intersection_raises (tensors : ℕ → Tensor)
    (P_send P_recv : Partition) (w : ℕ) (hne : P_send ≠ P_recv)
    (hdisj : P_send.members ∩ P_recv.members = ∅)
    (hw : w ∈ P_recv.members) (hws : w ∉ P_send.members) :
    compute_output_tensor_structure tensors P_send P_recv w = CotsOut.npError :=
  cots_recv_side_raises tensors P_send P_recv w hne hw

/-- Witness for the amended C8, at the counterexample's input. -/
theorem empty_intersection_raises_witness :
    ((Partition.mk 0 {0}) ≠ (Partition.mk 1 {1})
        ∧ (Partition.mk 0 {0}).members ∩ (Partition.mk 1 {1}).members = ∅
        ∧ (1 : ℕ) ∈ (Partition.mk 1 {1}).members
        ∧ (1 : ℕ) ∉ (Partition.mk 0 {0}).members)
    ∧ compute_output_tensor_structure (fun _ => Tensor.mk false [7])
        (Partition.mk 0 {0}) (Partition.mk 1 {1}) 1 = CotsOut.npError :=
  ⟨⟨by decide, by decide, by decide, by decide⟩,
    empty_intersection_raises (fun _ => Tensor.mk false [7])
      (Partition.mk 0 {0}) (Partition.mk 1 {1}) 1 (by decide) (by decide)
      (by decide) (by decide)⟩

/-- Claim C4: on every worker active in the input partition, the assembled
global shape has, on each grid axis `i`, the sum of the local extents over
the workers sharing its coordinates on every axis other than `i`, and the
assembled dtype and `requires_grad` equal the local structure's values
(tensor_comm.py, lines 94-119; stated through the call with no output
partition, whose result is exactly the assembly-phase structure). -/
theorem assembly_shape_axis_sums {d : ℕ} (lts : ℕ → LocalStructure d)
    (P_in : CartPartition d) (w : ℕ) (hw : w ∈ P_in.members) :
    assemble_global_tensor_structure lts P_in none w =
      some
        { shape := some fun i =>
            ∑ v ∈ P_in.members.filter
                (fun v => ∀ k, k ≠ i → P_in.coord v k = P_in.coord w k),
              (lts v).shape i
          dtype := some (lts w).dtype
          requires_grad := some (lts w).requires_grad } := by
  have hfilter : ∀ i : Fin d,
      axis_subgroup P_in (fun k => decide (k = i)) w =
        P_in.members.filter
          (fun v => ∀ k, k ≠ i → P_in.coord v k = P_in.coord w k) := by
    intro i
    unfold axis_subgroup
    apply Finset.filter_congr
    intro v _
    constructor
    · intro h k hk
      exact h k (decide_eq_false hk)
    · intro h k hk
      exact h k (of_decide_eq_false hk)
  have hred : assemble_global_tensor_structure lts P_in none w =
      some (if w ∈ P_in.members then assembled_structure lts P_in w else {}) :=
    rfl
  rw [hred, if_pos hw]
  unfold assembled_structure
  simp only [hfilter]

/-- Witness for C4: a two-member one-axis partition. -/
theorem assembly_shape_axis_sums_witness :
    ((0 : ℕ) ∈ (CartPartition.mk {0, 1} fun v => ![v]).members)
    ∧ assemble_global_tensor_structure
        (fun v => LocalStructure.mk ![v + 3] 7 true)
        (CartPartition.mk {0, 1} fun v => ![v]) none 0 =
      some
        { shape := some fun i =>
            ∑ v ∈ (CartPartition.mk {0, 1} fun v => ![v]).members.filter
                (fun v => ∀ k, k ≠ i →
                  (CartPartition.mk {0, 1} fun v => ![v]).coord v k =
                    (CartPartition.mk {0, 1} fun v => ![v]).coord 0 k),
              ((fun v => LocalStructure.mk ![v + 3] 7 true) v).shape i
          dtype := some ((fun v => LocalStructure.mk ![v + 3] 7 true) 0).dtype
          requires_grad :=
            some ((fun v => LocalStructure.mk ![v + 3] 7 true) 0).requires_grad } :=
  ⟨by decide,
    assembly_shape_axis_sums (fun v => LocalStructure.mk ![v + 3] 7 true)
      (CartPartition.mk {0, 1} fun v => ![v]) 0 (by decide)⟩

/-- Claim C5: when an output partition is given, every worker active in it
returns a structure whose shape, dtype and `requires_grad` equal the values
assembled on the input partition's active workers, delivered by
`Partition.broadcast` — with no requirement that the two member sets
intersect, so in particular also when they are fully disjoint
(tensor_comm.py, lines 121-131). -/
theorem assembly_broadcast_to_output {d : ℕ} (lts : ℕ → LocalStructure d)
    (P_in : CartPartition d) (outM : Finset ℕ) (w v : ℕ)
    (hw : w ∈ outM) (hv : v ∈ P_in.members)
    (huni : ∀ a ∈ P_in.members, ∀ b ∈ P_in.members,
      (∀ i, (∑ u ∈ axis_subgroup P_in (fun k => decide (k = i)) a,
            (lts u).shape i)
          = ∑ u ∈ axis_subgroup P_in (fun k => decide (k = i)) b,
            (lts u).shape i)
        ∧ (lts a).dtype = (lts b).dtype
        ∧ (lts a).requires_grad = (lts b).requires_grad) :
    assemble_global_tensor_structure lts P_in (some outM) w =
      some (assembled_structure lts P_in v) := by
  have hne : P_in.members.Nonempty := ⟨v, hv⟩
  have hred : assemble_global_tensor_structure lts P_in (some outM) w =
      if w ∈ outM then
        (if P_in.members.Nonempty then
          some (assembled_structure lts P_in (broadcast_root P_in))
        else none)
      else
        some (if w ∈ P_in.members then assembled_structure lts P_in w
          else {}) := rfl
  rw [hred, if_pos hw, if_pos hne]
  refine congrArg some ?_
  obtain ⟨hsh, hdt, hrg⟩ := huni _ (broadcast_root_mem P_in hne) _ hv
  unfold assembled_structure
  rw [TensorStructure.mk.injEq]
  exact ⟨congrArg some (funext hsh), congrArg some hdt, congrArg some hrg⟩

/-- Witness for C5: input members `{0, 1}` and output members `{5, 6}` are
fully disjoint, and worker 5 still receives the structure assembled on the
input side. -/
theorem assembly_broadcast_to_output_witness :
    ((5 : ℕ) ∈ ({5, 6} : Finset ℕ)
        ∧ (0 : ℕ) ∈ (CartPartition.mk {0, 1} fun v => ![v]).members
        ∧ (∀ a ∈ (CartPartition.mk {0, 1} fun v => ![v]).members,
            ∀ b ∈ (CartPartition.mk {0, 1} fun v => ![v]).members,
              (∀ i, (∑ u ∈ axis_subgroup (CartPartition.mk {0, 1} fun v => ![v])
                      (fun k => decide (k = i)) a,
                    ((fun _ => LocalStructure.mk ![2] 3 false) u).shape i)
                  = ∑ u ∈ axis_subgroup (CartPartition.mk {0, 1} fun v => ![v])
                      (fun k => decide (k = i)) b,
                    ((fun _ => LocalStructure.mk ![2] 3 false) u).shape i)
                ∧ ((fun _ => LocalStructure.mk ![2] 3 false) a).dtype
                  = ((fun _ => LocalStructure.mk ![2] 3 false) b).dtype
                ∧ ((fun _ => LocalStructure.mk ![2] 3 false) a).requires_grad
                  = ((fun _ => LocalStructure.mk ![2] 3 false) b).requires_grad))
    ∧ assemble_global_tensor_structure (fun _ => LocalStructure.mk ![2] 3 false)
        (CartPartition.mk {0, 1} fun v => ![v]) (some {5, 6}) 5 =
      some (assembled_structure (fun _ => LocalStructure.mk ![2] 3 false)
        (CartPartition.mk {0, 1} fun v => ![v]) 0) :=
  ⟨⟨by decide, by decide, by decide⟩,
    assembly_broadcast_to_output (fun _ => LocalStructure.mk ![2] 3 false)
      (CartPartition.mk {0, 1} fun v => ![v]) {5, 6} 5 0 (by decide)
      (by decide) (by decide)⟩

/-- Claim C10: a worker active in neither the input partition nor the
(possibly absent) output partition returns the freshly constructed
`TensorStructure` with every field still unset (tensor_comm.py, line 89 and
the two skipped blocks), and takes part in no collective operation. -/
theorem assembly_inactive_default {d : ℕ} (lts : ℕ → LocalStructure d)
    (P_in : CartPartition d) (P_out : Option (Finset ℕ)) (w : ℕ)
    (hin : w ∉ P_in.members) (hout : w ∉ P_out.getD ∅) :
    assemble_global_tensor_structure lts P_in P_out w =
        some ({} : TensorStructure d)
      ∧ assemble_collective_calls P_in P_out w = 0 := by
  cases P_out with
  | none =>
    refine ⟨?_, ?_⟩
    · show some (if w ∈ P_in.members then assembled_structure lts P_in w
          else {}) = some {}
      rw [if_neg hin]
    · show (if w ∈ P_in.members then d else 0) + 0 = 0
      rw [if_neg hin]
  | some outM =>
    have hw : w ∉ outM := hout
    refine ⟨?_, ?_⟩
    · show (if w ∈ outM then
          (if P_in.members.Nonempty then
            some (assembled_structure lts P_in (broadcast_root P_in))
          else none)
        else
          some (if w ∈ P_in.members then assembled_structure lts P_in w
            else {})) = some {}
      rw [if_neg hw, if_neg hin]
    · show (if w ∈ P_in.members then d else 0) + (if w ∈ outM then 3 else 0)
          = 0
      rw [if_neg hin, if_neg hw]

/-- Witness for C10: worker 2 is in neither `{0}` nor the output `{1}`. -/
theorem assembly_inactive_default_witness :
    ((2 : ℕ) ∉ (CartPartition.mk {0} fun v => ![v]).members
        ∧ (2 : ℕ) ∉ (some ({1} : Finset ℕ)).getD ∅)
    ∧ (assemble_global_tensor_structure (fun _ => LocalStructure.mk ![2] 3 false)
          (CartPartition.mk {0} fun v => ![v]) (some {1}) 2 =
        some ({} : TensorStructure 1)
      ∧ assemble_collective_calls (CartPartition.mk {0} fun v => ![v])
          (some {1}) 2 = 0) :=
  ⟨⟨by decide, by decide⟩,
    assembly_inactive_default (fun _ => LocalStructure.mk ![2] 3 false)
      (CartPartition.mk {0} fun v => ![v]) (some {1}) 2 (by decide)
      (by decide)⟩

end Distdl
